import Mathlib

/-!
Verification development for the luma.gl scenegraph transform-tree component
(`ScenegraphNode`).  The repository snapshot under inspection ships only the
test suite (`src/modules/core/test/scenegraph/nodes/scenegraph-node.spec.js`),
the module export list (`src/modules/core/src/index.js`) and an unrelated
stress-test example; the implementation file
`src/scenegraph/nodes/scenegraph-node.js` is not present.  The node type and
its operations are therefore modelled from the specification, as are the
matrix/vector helpers the spec names as the external math-library collaborator
(math.gl `Matrix4` / `Vector3`).

Scalars are rationals; sine and cosine for the Euler-angle rotations are kept
abstract (`SinCos`), since the composition claims do not depend on their
values.
-/

namespace Scenegraph

/-- Modelled from the spec: the 3-vector type consumed from the math library
(math.gl `Vector3`), used for `position`, `rotation` (Euler XYZ) and
`scale`. -/
structure Vec3 where
  x : ℚ
  y : ℚ
  z : ℚ
deriving DecidableEq, Repr

def Vec3.zero : Vec3 := ⟨0, 0, 0⟩

def Vec3.one : Vec3 := ⟨1, 1, 1⟩

/-- Modelled from the spec: the 4x4 transform-matrix type consumed from the
math library (math.gl `Matrix4`), row-major entries `mRC`. -/
structure Mat4 where
  m00 : ℚ
  m01 : ℚ
  m02 : ℚ
  m03 : ℚ
  m10 : ℚ
  m11 : ℚ
  m12 : ℚ
  m13 : ℚ
  m20 : ℚ
  m21 : ℚ
  m22 : ℚ
  m23 : ℚ
  m30 : ℚ
  m31 : ℚ
  m32 : ℚ
  m33 : ℚ
deriving DecidableEq, Repr

/-- Modelled from the spec: identity construction of the math library's
4x4 matrix type. -/
def Mat4.identity : Mat4 :=
  ⟨1, 0, 0, 0,
   0, 1, 0, 0,
   0, 0, 1, 0,
   0, 0, 0, 1⟩

/-- Modelled from the spec: matrix multiplication of the math library's
4x4 matrix type (row times column). -/
def Mat4.mul (a b : Mat4) : Mat4 :=
  ⟨a.m00 * b.m00 + a.m01 * b.m10 + a.m02 * b.m20 + a.m03 * b.m30,
   a.m00 * b.m01 + a.m01 * b.m11 + a.m02 * b.m21 + a.m03 * b.m31,
   a.m00 * b.m02 + a.m01 * b.m12 + a.m02 * b.m22 + a.m03 * b.m32,
   a.m00 * b.m03 + a.m01 * b.m13 + a.m02 * b.m23 + a.m03 * b.m33,
   a.m10 * b.m00 + a.m11 * b.m10 + a.m12 * b.m20 + a.m13 * b.m30,
   a.m10 * b.m01 + a.m11 * b.m11 + a.m12 * b.m21 + a.m13 * b.m31,
   a.m10 * b.m02 + a.m11 * b.m12 + a.m12 * b.m22 + a.m13 * b.m32,
   a.m10 * b.m03 + a.m11 * b.m13 + a.m12 * b.m23 + a.m13 * b.m33,
   a.m20 * b.m00 + a.m21 * b.m10 + a.m22 * b.m20 + a.m23 * b.m30,
   a.m20 * b.m01 + a.m21 * b.m11 + a.m22 * b.m21 + a.m23 * b.m31,
   a.m20 * b.m02 + a.m21 * b.m12 + a.m22 * b.m22 + a.m23 * b.m32,
   a.m20 * b.m03 + a.m21 * b.m13 + a.m22 * b.m23 + a.m23 * b.m33,
   a.m30 * b.m00 + a.m31 * b.m10 + a.m32 * b.m20 + a.m33 * b.m30,
   a.m30 * b.m01 + a.m31 * b.m11 + a.m32 * b.m21 + a.m33 * b.m31,
   a.m30 * b.m02 + a.m31 * b.m12 + a.m32 * b.m22 + a.m33 * b.m32,
   a.m30 * b.m03 + a.m31 * b.m13 + a.m32 * b.m23 + a.m33 * b.m33⟩

instance : Mul Mat4 := ⟨Mat4.mul⟩

theorem Mat4.mul_def (a b : Mat4) : a * b = Mat4.mul a b := rfl

theorem Mat4.identity_mul (a : Mat4) : Mat4.identity * a = a := by
  cases a
  simp only [Mat4.mul_def, Mat4.mul, Mat4.identity, Mat4.mk.injEq]
  refine ⟨?_, ?_, ?_, ?_, ?_, ?_, ?_, ?_, ?_, ?_, ?_, ?_, ?_, ?_, ?_, ?_⟩ <;> ring

theorem Mat4.mul_identity (a : Mat4) : a * Mat4.identity = a := by
  cases a
  simp only [Mat4.mul_def, Mat4.mul, Mat4.identity, Mat4.mk.injEq]
  refine ⟨?_, ?_, ?_, ?_, ?_, ?_, ?_, ?_, ?_, ?_, ?_, ?_, ?_, ?_, ?_, ?_⟩ <;> ring

theorem Mat4.mul_assoc (a b c : Mat4) : a * b * c = a * (b * c) := by
  cases a; cases b; cases c
  simp only [Mat4.mul_def, Mat4.mul, Mat4.mk.injEq]
  refine ⟨?_, ?_, ?_, ?_, ?_, ?_, ?_, ?_, ?_, ?_, ?_, ?_, ?_, ?_, ?_, ?_⟩ <;> ring

/-- Modelled from the spec: the math library's translation matrix
(`translate`). -/
def Mat4.translationMat (v : Vec3) : Mat4 :=
  ⟨1, 0, 0, v.x,
   0, 1, 0, v.y,
   0, 0, 1, v.z,
   0, 0, 0, 1⟩

/-- Modelled from the spec: the math library's scaling matrix (`scale` with a
3-vector argument). -/
def Mat4.scaleMat (v : Vec3) : Mat4 :=
  ⟨v.x, 0, 0, 0,
   0, v.y, 0, 0,
   0, 0, v.z, 0,
   0, 0, 0, 1⟩

/-- Uniform scale matrix, as produced by math.gl `scale(k)` with a scalar. -/
def Mat4.uniformScale (k : ℚ) : Mat4 := Mat4.scaleMat ⟨k, k, k⟩

/-- Abstract sine/cosine pair used for Euler-angle rotations; the composition
claims hold for any interpretation of the trigonometric functions. -/
structure SinCos where
  sin : ℚ → ℚ
  cos : ℚ → ℚ

/-- Rotation about the x-axis, given cosine and sine of the angle. -/
def Mat4.rotXMat (c s : ℚ) : Mat4 :=
  ⟨1, 0, 0, 0,
   0, c, -s, 0,
   0, s, c, 0,
   0, 0, 0, 1⟩

/-- Rotation about the y-axis, given cosine and sine of the angle. -/
def Mat4.rotYMat (c s : ℚ) : Mat4 :=
  ⟨c, 0, s, 0,
   0, 1, 0, 0,
   -s, 0, c, 0,
   0, 0, 0, 1⟩

/-- Rotation about the z-axis, given cosine and sine of the angle. -/
def Mat4.rotZMat (c s : ℚ) : Mat4 :=
  ⟨c, -s, 0, 0,
   s, c, 0, 0,
   0, 0, 1, 0,
   0, 0, 0, 1⟩

/-- Modelled from the spec: the math library's `rotateXYZ` rotation matrix for
Euler angles in XYZ order, X applied first in the chain. -/
def Mat4.rotXYZMat (sc : SinCos) (r : Vec3) : Mat4 :=
  Mat4.rotXMat (sc.cos r.x) (sc.sin r.x) *
    Mat4.rotYMat (sc.cos r.y) (sc.sin r.y) *
    Mat4.rotZMat (sc.cos r.z) (sc.sin r.z)

/-- Modelled from the spec: the math library's chained post-multiplication
`m.translate(v)`. -/
def Mat4.translateBy (m : Mat4) (v : Vec3) : Mat4 := m * Mat4.translationMat v

/-- Modelled from the spec: the math library's chained post-multiplication
`m.rotateXYZ(r)` (rotate about x, then y, then z). -/
def Mat4.rotateXYZBy (m : Mat4) (sc : SinCos) (r : Vec3) : Mat4 :=
  m * Mat4.rotXMat (sc.cos r.x) (sc.sin r.x) *
    Mat4.rotYMat (sc.cos r.y) (sc.sin r.y) *
    Mat4.rotZMat (sc.cos r.z) (sc.sin r.z)

/-- Modelled from the spec: the math library's chained post-multiplication
`m.scale(v)`. -/
def Mat4.scaleBy (m : Mat4) (v : Vec3) : Mat4 := m * Mat4.scaleMat v

end Scenegraph

namespace Scenegraph

/-- Modelled from the spec: the configuration-object schema accepted by the
`ScenegraphNode` constructor and by `setProps` — any subset of
`{display, position, rotation, scale, matrix, id}` (the optional initial
`children` list is passed separately to the constructor model). -/
structure PropsConfig where
  display : Option Bool
  position : Option Vec3
  rotation : Option Vec3
  scale : Option Vec3
  matrix : Option Mat4
  id : Option String
deriving DecidableEq, Repr

/-- The empty configuration: nothing supplied. -/
def PropsConfig.empty : PropsConfig := ⟨none, none, none, none, none, none⟩

/-- Merge a newly supplied configuration into a retained props record:
supplied fields overwrite, absent fields keep the prior value. -/
def PropsConfig.merge (old new : PropsConfig) : PropsConfig :=
  ⟨new.display.rec old.display some,
   new.position.rec old.position some,
   new.rotation.rec old.rotation some,
   new.scale.rec old.scale some,
   new.matrix.rec old.matrix some,
   new.id.rec old.id some⟩

/-- Modelled from the spec: the per-node scalar state of a `ScenegraphNode`
(everything except the `children` list).  The `tag` field stands for
JavaScript object identity; `props` is the retained props record that
`setProps` keeps consistent with the top-level attributes. -/
structure NodeData where
  tag : Nat
  id : String
  display : Bool
  position : Vec3
  rotation : Vec3
  scale : Vec3
  matrix : Mat4
  worldMatrix : Mat4
  props : PropsConfig
deriving DecidableEq, Repr

/-- Modelled from the spec: a `ScenegraphNode` — per-node state plus an
ordered list of exclusively-owned children. -/
inductive Node where
  | mk (data : NodeData) (children : List Node)

def Node.data : Node → NodeData
  | .mk d _ => d

def Node.children : Node → List Node
  | .mk _ cs => cs

def Node.tag (n : Node) : Nat := n.data.tag

def Node.matrix (n : Node) : Mat4 := n.data.matrix

def Node.worldMatrix (n : Node) : Mat4 := n.data.worldMatrix

def Node.position (n : Node) : Vec3 := n.data.position

def Node.rotation (n : Node) : Vec3 := n.data.rotation

def Node.scaleV (n : Node) : Vec3 := n.data.scale

def Node.display (n : Node) : Bool := n.data.display

def Node.props (n : Node) : PropsConfig := n.data.props

/-- Modelled from the spec: default per-node state on construction —
zero position, zero rotation, unit scale, identity local matrix,
identity world matrix, empty props record, `display` on. -/
def defaultData (tag : Nat) : NodeData :=
  ⟨tag, "", true, Vec3.zero, Vec3.zero, Vec3.one, Mat4.identity, Mat4.identity,
   PropsConfig.empty⟩

/-- Modelled from the spec: applying a configuration to the per-node state —
each supplied field is written to the matching top-level attribute (a supplied
`matrix` is installed verbatim, never combined with position/rotation/scale),
and the whole configuration is merged into the retained props record. -/
def applyProps (d : NodeData) (cfg : PropsConfig) : NodeData :=
  { d with
    display := cfg.display.rec d.display (fun b => b),
    position := cfg.position.rec d.position (fun v => v),
    rotation := cfg.rotation.rec d.rotation (fun v => v),
    scale := cfg.scale.rec d.scale (fun v => v),
    matrix := cfg.matrix.rec d.matrix (fun m => m),
    id := cfg.id.rec d.id (fun s => s),
    props := d.props.merge cfg }

/-- Modelled from the spec: the `ScenegraphNode` constructor — default state,
then the supplied configuration applied via the `setProps` path, with the
optional initial children installed. -/
def mkNode (tag : Nat) (cfg : PropsConfig) (children : List Node) : Node :=
  .mk (applyProps (defaultData tag) cfg) children

/-- Modelled from the spec: `setProps(props)` — applies the configuration
schema post-construction, merging non-specified fields. -/
def Node.setProps : Node → PropsConfig → Node
  | .mk d cs, cfg => .mk (applyProps d cfg) cs

/-- Modelled from the spec: the argument shape accepted by `add` — a single
node or an arbitrarily nested list structure of nodes. -/
inductive NestedNode where
  | single (n : Node)
  | group (l : List NestedNode)

mutual

/-- Flatten a nested node structure in traversal order. -/
def flattenNested : NestedNode → List Node
  | .single n => [n]
  | .group l => flattenGroup l

/-- Flatten each element of a list of nested node structures, in order. -/
def flattenGroup : List NestedNode → List Node
  | [] => []
  | t :: ts => flattenNested t ++ flattenGroup ts

end

/-- Modelled from the spec: `add(childOrNestedList)` — flattens the argument
and appends each node in traversal order to `children`. -/
def Node.add : Node → NestedNode → Node
  | .mk d cs, t => .mk d (cs ++ flattenNested t)

/-- Remove the first node with the given identity tag from a list. -/
def removeFirst (t : Nat) : List Node → List Node
  | [] => []
  | c :: cs => if c.tag = t then cs else c :: removeFirst t cs

/-- Modelled from the spec: `remove(child)` — removes the first occurrence
identical (by object identity, modelled by `tag`) to `child` from `children`;
silent no-op when absent. -/
def Node.remove : Node → Node → Node
  | .mk d cs, child => .mk d (removeFirst child.tag cs)

/-- Modelled from the spec: `removeAll()` — clears `children`. -/
def Node.removeAll : Node → Node
  | .mk d _ => .mk d []

mutual

/-- Modelled from the spec: `delete()` — recursively calls `delete` on every
current child, then clears the node's own `children`.  The first component is
the node's own final state; the second collects the final (post-delete) states
of all proper descendants, which in the mutable original are the very objects
the recursive calls updated in place. -/
def deleteRun : Node → Node × List Node
  | .mk d cs => (.mk d [], deleteRunList cs)

/-- Delete each node of a list in order, collecting every touched node's
final state. -/
def deleteRunList : List Node → List Node
  | [] => []
  | c :: cs => (deleteRun c).1 :: ((deleteRun c).2 ++ deleteRunList cs)

end

end Scenegraph

namespace Scenegraph

mutual

/-- Modelled from the spec: the recursive worker of `compileMatrices()` — a
pre-order pass with an accumulated base matrix: the visited node's
`worldMatrix` becomes `base × localMatrix`, and that product is the base
passed to its children. -/
def compileWith (base : Mat4) : Node → Node
  | .mk d cs => .mk { d with worldMatrix := base * d.matrix }
      (compileWithList (base * d.matrix) cs)

/-- Compile each node of a children list against the parent's world matrix. -/
def compileWithList (base : Mat4) : List Node → List Node
  | [] => []
  | c :: cs => compileWith base c :: compileWithList base cs

end

/-- Modelled from the spec: `compileMatrices()` with no externally supplied
base — the base defaults to the identity. -/
def Node.compileMatrices (n : Node) : Node := compileWith Mat4.identity n

mutual

/-- Decidable check that, throughout a subtree, every child's `worldMatrix`
equals its parent's `worldMatrix` times the child's local matrix. -/
def checkNode : Node → Bool
  | .mk d cs => checkList d.worldMatrix cs

/-- Check a children list against the parent's world matrix `w`. -/
def checkList (w : Mat4) : List Node → Bool
  | [] => true
  | .mk d cs :: rest =>
      decide (d.worldMatrix = w * d.matrix) && checkList d.worldMatrix cs &&
        checkList w rest

end

mutual

/-- The pre-order visitation sequence of a subtree: the node itself, then the
pre-order sequences of its children in insertion order. -/
def preorder : Node → List Node
  | .mk d cs => .mk d cs :: preorderList cs

/-- Concatenated pre-order sequences of a list of sibling subtrees. -/
def preorderList : List Node → List Node
  | [] => []
  | c :: cs => preorder c ++ preorderList cs

end

mutual

/-- Modelled from the spec: `traverse(visitor)` — applies the visitor to the
node itself, then traverses each child in insertion order; the visitor is
modelled as a state transformer so the visitation order is observable. -/
def traverseNode {σ : Type} (visit : Node → σ → σ) : Node → σ → σ
  | .mk d cs, s => traverseChildren visit cs (visit (.mk d cs) s)

/-- Traverse each node of a children list in order, threading the state. -/
def traverseChildren {σ : Type} (visit : Node → σ → σ) : List Node → σ → σ
  | [], s => s
  | c :: cs, s => traverseChildren visit cs (traverseNode visit c s)

end

/-- The visitor that records each visited node, in visitation order. -/
def visitLog (n : Node) (s : List Node) : List Node := s ++ [n]

/-- Modelled from the spec: `setMatrixComponents({position?, rotation?, scale?,
update})` — each supplied component field is stored (absent fields keep the
prior value) and, when `upd` is true, the local matrix is recomputed with the
math library's chained calls
`identity().translate(position).rotateXYZ(rotation).scale(scale)`. -/
def Node.setMatrixComponents (sc : SinCos) : Node →
    Option Vec3 → Option Vec3 → Option Vec3 → Bool → Node
  | .mk d cs, pos, rot, scl, upd =>
    let p := pos.rec d.position (fun v => v)
    let r := rot.rec d.rotation (fun v => v)
    let s := scl.rec d.scale (fun v => v)
    let m := if upd then
        ((Mat4.identity.translateBy p).rotateXYZBy sc r).scaleBy s
      else d.matrix
    .mk { d with position := p, rotation := r, scale := s, matrix := m } cs

/-- Modelled from the spec: `update(componentsOrNothing)` — equivalent to
`setMatrixComponents` with `update` forced true. -/
def Node.update (sc : SinCos) (n : Node)
    (pos rot scl : Option Vec3) : Node :=
  n.setMatrixComponents sc pos rot scl true

/-- Strong induction over the nested node tree: to prove a property of every
node it suffices to prove it for a node assuming it for each child. -/
theorem Node.inductionOn {P : Node → Prop}
    (step : ∀ d cs, (∀ c, c ∈ cs → P c) → P (Node.mk d cs)) :
    ∀ n, P n
  | .mk d cs => step d cs (fun c _hc => Node.inductionOn step c)
termination_by n => sizeOf n
decreasing_by
  simp only [Node.mk.sizeOf_spec]
  have h := List.sizeOf_lt_of_mem _hc
  omega

/-- Modelled from the spec: the matrix slot installed by
`setMatrix(matrix, copy)`.  JavaScript reference semantics of the matrix
argument are made explicit: an `owned` slot holds a defensive copy of the
value, a `shared` slot holds a reference (here an index) into a store of
matrix cells that the caller may keep mutating. -/
inductive MatrixSlot where
  | owned (m : Mat4)
  | shared (h : Nat)
deriving DecidableEq, Repr

/-- Read the current matrix value of a slot against a store of matrix
cells. -/
def readMatrix (store : List Mat4) : MatrixSlot → Mat4
  | .owned m => m
  | .shared h => store.getD h Mat4.identity

/-- Modelled from the spec: `setMatrix(matrix, copy)` for the matrix argument
living in cell `h` of the store — with `copy` true the node stores a
defensive copy of the current value, with `copy` false it stores the argument
reference itself. -/
def setMatrixSlot (store : List Mat4) (h : Nat) (copy : Bool) : MatrixSlot :=
  if copy then .owned (store.getD h Mat4.identity) else .shared h

end Scenegraph

namespace Scenegraph

/-- Concrete grandchild with identity local matrix, for the compile example. -/
def exGrand : Node := mkNode 2 PropsConfig.empty []

/-- Concrete child with local matrix `scale(2)`, for the compile example. -/
def exChild : Node :=
  mkNode 1 { PropsConfig.empty with matrix := some (Mat4.uniformScale 2) } [exGrand]

/-- Concrete root with local matrix `scale(2)`, for the compile example. -/
def exRoot : Node :=
  mkNode 0 { PropsConfig.empty with matrix := some (Mat4.uniformScale 2) } [exChild]

/-- Concrete child node, identity tag 1. -/
def wNodeA : Node := Node.mk (defaultData 1) []

/-- Concrete child node, identity tag 2. -/
def wNodeB : Node := Node.mk (defaultData 2) []

/-- Concrete parent holding `wNodeA` and `wNodeB`. -/
def wParent : Node := Node.mk (defaultData 0) [wNodeA, wNodeB]

/-- Concrete node that is not a child of `wParent`. -/
def wStranger : Node := Node.mk (defaultData 3) []

/-- Concrete leaf child for the deletion example. -/
def wChild : Node := Node.mk (defaultData 11) []

/-- Concrete two-level tree for the deletion example. -/
def wTree : Node := Node.mk (defaultData 10) [wChild]

/-- Concrete configuration supplying every property, including both a matrix
and position/rotation/scale vectors. -/
def wCfgFull : PropsConfig :=
  ⟨some true, some ⟨1, 1, 1⟩, some ⟨2, 2, 2⟩, some ⟨3, 3, 3⟩,
   some (Mat4.uniformScale 4), some "full"⟩


theorem compileWith_worldMatrix (base : Mat4) (n : Node) :
    (compileWith base n).worldMatrix = base * n.matrix := by
  cases n with
  | mk d cs => simp [compileWith, Node.worldMatrix, Node.matrix, Node.data]

theorem checkList_compileWithList (w : Mat4) (cs : List Node)
    (h : ∀ c ∈ cs, ∀ b, checkNode (compileWith b c) = true) :
    checkList w (compileWithList w cs) = true := by
  induction cs with
  | nil => simp [compileWithList, checkList]
  | cons c rest ih =>
    cases c with
    | mk d ccs =>
      have hc := h _ (List.mem_cons_self _ _) w
      simp only [compileWith, checkNode] at hc
      have ihrest := ih (fun c' hc' b => h c' (List.mem_cons_of_mem _ hc') b)
      simp [compileWithList, compileWith, checkList, hc, ihrest]

theorem checkNode_compileWith (n : Node) :
    ∀ base, checkNode (compileWith base n) = true := by
  induction n using Node.inductionOn with
  | step d cs ih =>
    intro base
    simp only [compileWith, checkNode]
    exact checkList_compileWithList _ _ (fun c hc b => ih c hc b)

theorem compileWithList_idem (w : Mat4) (cs : List Node)
    (h : ∀ c ∈ cs, ∀ b, compileWith b (compileWith b c) = compileWith b c) :
    compileWithList w (compileWithList w cs) = compileWithList w cs := by
  induction cs with
  | nil => simp [compileWithList]
  | cons c rest ih =>
    simp only [compileWithList]
    rw [h _ (List.mem_cons_self _ _) w,
      ih (fun c' hc' b => h c' (List.mem_cons_of_mem _ hc') b)]

theorem compileWith_idem (n : Node) :
    ∀ base, compileWith base (compileWith base n) = compileWith base n := by
  induction n using Node.inductionOn with
  | step d cs ih =>
    intro base
    simp only [compileWith, Node.mk.injEq, true_and]
    exact compileWithList_idem _ _ (fun c hc b => ih c hc b)

theorem traverseChildren_visitLog (cs : List Node)
    (h : ∀ c ∈ cs, ∀ s, traverseNode visitLog c s = s ++ preorder c) :
    ∀ s, traverseChildren visitLog cs s = s ++ preorderList cs := by
  induction cs with
  | nil => intro s; simp [traverseChildren, preorderList]
  | cons c rest ih =>
    intro s
    simp only [traverseChildren, preorderList]
    rw [h _ (List.mem_cons_self _ _),
      ih (fun c' hc' s' => h c' (List.mem_cons_of_mem _ hc') s'),
      List.append_assoc]

theorem traverseNode_visitLog (n : Node) :
    ∀ s, traverseNode visitLog n s = s ++ preorder n := by
  induction n using Node.inductionOn with
  | step d cs ih =>
    intro s
    simp only [traverseNode, preorder, visitLog]
    rw [traverseChildren_visitLog cs (fun c hc s' => ih c hc s')]
    simp

theorem deleteRun_fst_children (n : Node) : (deleteRun n).1.children = [] := by
  cases n with
  | mk d cs => simp [deleteRun, Node.children]

theorem deleteRunList_children (cs : List Node)
    (h : ∀ c ∈ cs, ∀ d ∈ (deleteRun c).2, d.children = []) :
    ∀ d ∈ deleteRunList cs, d.children = [] := by
  induction cs with
  | nil => simp [deleteRunList]
  | cons c rest ih =>
    intro d hd
    simp only [deleteRunList, List.mem_cons, List.mem_append] at hd
    rcases hd with h1 | h2 | h3
    · rw [h1]; exact deleteRun_fst_children c
    · exact h c (List.mem_cons_self _ _) d h2
    · exact ih (fun c' hc' => h c' (List.mem_cons_of_mem _ hc')) d h3

theorem deleteRun_snd_children (n : Node) :
    ∀ d ∈ (deleteRun n).2, d.children = [] := by
  induction n using Node.inductionOn with
  | step dd cs ih =>
    intro d hd
    simp only [deleteRun] at hd
    exact deleteRunList_children cs ih d hd

theorem deleteRun_of_empty (m : Node) (h : m.children = []) :
    deleteRun m = (m, []) := by
  cases m with
  | mk d cs =>
    simp only [Node.children] at h
    subst h
    simp [deleteRun, deleteRunList]

theorem removeFirst_of_not_mem (t : Nat) (cs : List Node)
    (h : ∀ c ∈ cs, c.tag ≠ t) : removeFirst t cs = cs := by
  induction cs with
  | nil => simp [removeFirst]
  | cons c rest ih =>
    simp only [removeFirst]
    rw [if_neg (h c (List.mem_cons_self _ _)),
      ih (fun c' hc' => h c' (List.mem_cons_of_mem _ hc'))]

theorem removeFirst_append (t : Nat) (pre : List Node) (c : Node)
    (post : List Node) (hc : c.tag = t) (hpre : ∀ x ∈ pre, x.tag ≠ t) :
    removeFirst t (pre ++ c :: post) = pre ++ post := by
  induction pre with
  | nil => simp [removeFirst, hc]
  | cons p rest ih =>
    simp only [List.cons_append, removeFirst, List.append_eq]
    rw [if_neg (hpre p (List.mem_cons_self _ _)),
      ih (fun x hx => hpre x (List.mem_cons_of_mem _ hx))]

theorem getD_set_self (m2 dflt : Mat4) (s : List Mat4) :
    ∀ h : Nat, h < s.length → (s.set h m2).getD h dflt = m2 := by
  induction s with
  | nil => intro h hh; simp at hh
  | cons a rest ih =>
    intro h hh
    cases h with
    | zero => simp [List.set]
    | succ k =>
      simp only [List.set, List.getD_cons_succ]
      exact ih k (by simpa using hh)

end Scenegraph

namespace Scenegraph

/-- C1: after `compileMatrices()` on the root with no external base, the
root's `worldMatrix` equals its local matrix (composed with the identity
base) and every descendant's `worldMatrix` equals its parent's `worldMatrix`
times its own local matrix; in particular, for a root with local matrix
`scale(2)`, a child with local matrix `scale(2)` and a grandchild with
identity local matrix, the grandchild's `worldMatrix` is `scale(4)`. -/
theorem claim_C1 (n : Node) :
    n.compileMatrices.worldMatrix = n.matrix
    ∧ checkNode n.compileMatrices = true
    ∧ (preorder exRoot.compileMatrices).map Node.worldMatrix
        = [Mat4.uniformScale 2, Mat4.uniformScale 4, Mat4.uniformScale 4] := by
  refine ⟨?_, ?_, ?_⟩
  · rw [Node.compileMatrices, compileWith_worldMatrix, Mat4.identity_mul]
  · exact checkNode_compileWith n Mat4.identity
  · simp [exRoot, exChild, exGrand, mkNode, applyProps, defaultData,
      Node.compileMatrices, compileWith, compileWithList, preorder, preorderList,
      Node.worldMatrix, Node.data, PropsConfig.empty, Mat4.uniformScale,
      Mat4.scaleMat, Mat4.identity, Mat4.mul_def, Mat4.mul, Mat4.mk.injEq]
    norm_num

/-- C2: `setMatrixComponents({position, rotation, scale})` with `update` true
(and likewise `update({position, rotation, scale})`) sets the local matrix to
`translate(position) × rotateXYZ(rotation) × scale(scale)`, translation
outermost and scale innermost. -/
theorem claim_C2 (sc : SinCos) (n : Node) (p r s : Vec3) :
    (n.setMatrixComponents sc (some p) (some r) (some s) true).matrix
      = Mat4.translationMat p * Mat4.rotXYZMat sc r * Mat4.scaleMat s
    ∧ (n.update sc (some p) (some r) (some s)).matrix
      = Mat4.translationMat p * Mat4.rotXYZMat sc r * Mat4.scaleMat s := by
  cases n with
  | mk d cs =>
    refine ⟨?_, ?_⟩ <;>
      simp [Node.update, Node.setMatrixComponents, Node.matrix, Node.data,
        Mat4.scaleBy, Mat4.rotateXYZBy, Mat4.translateBy, Mat4.rotXYZMat,
        Mat4.identity_mul, Mat4.mul_assoc]

/-- C3: `add` flattens an arbitrarily nested list structure of nodes and
appends the nodes to `children` in traversal order; in particular
`add([a, [b, c]])` on a node with empty children yields children `[a, b, c]`
of length 3. -/
theorem claim_C3 (n : Node) (t : NestedNode) (dd : NodeData) (a b c : Node) :
    (n.add t).children = n.children ++ flattenNested t
    ∧ ((Node.mk dd []).add
        (.group [.single a, .group [.single b, .single c]])).children = [a, b, c]
    ∧ ((Node.mk dd []).add
        (.group [.single a, .group [.single b, .single c]])).children.length = 3 := by
  refine ⟨?_, ?_, ?_⟩
  · cases n with
    | mk d cs => simp [Node.add, Node.children]
  · simp [Node.add, Node.children, flattenNested, flattenGroup]
  · simp [Node.add, Node.children, flattenNested, flattenGroup]

/-- C4: `remove(child)` removes the first occurrence identical (by object
identity, modelled by `tag`) to `child` from `children`, and is a silent
no-op leaving `children` unchanged when `child` is not among the direct
children. -/
theorem claim_C4 (n child : Node) :
    ((∀ c ∈ n.children, c.tag ≠ child.tag) → n.remove child = n)
    ∧ (∀ (pre : List Node) (c : Node) (post : List Node),
        n.children = pre ++ c :: post → c.tag = child.tag →
        (∀ x ∈ pre, x.tag ≠ child.tag) →
        (n.remove child).children = pre ++ post) := by
  cases n with
  | mk d cs =>
    constructor
    · intro h
      simp only [Node.remove]
      rw [removeFirst_of_not_mem child.tag cs (by simpa [Node.children] using h)]
    · intro pre c post hsplit hc hpre
      simp only [Node.remove, Node.children] at hsplit ⊢
      subst hsplit
      exact removeFirst_append child.tag pre c post hc hpre

/-- Witness for C4: removing a non-child is a no-op on a concrete parent,
and removing the first child of a concrete parent drops exactly it. -/
theorem claim_C4_witness :
    wParent.remove wStranger = wParent
    ∧ (wParent.remove wNodeA).children = [wNodeB] :=
  ⟨(claim_C4 wParent wStranger).1 (by
      simp [wParent, wNodeA, wNodeB, wStranger, Node.children, Node.tag,
        Node.data, defaultData]),
   (claim_C4 wParent wNodeA).2 [] wNodeA [wNodeB]
     (by simp [wParent, Node.children]) rfl (by simp)⟩

/-- C5: `delete()` recursively deletes every current child — every touched
descendant ends with empty `children` — then clears the node's own
`children`; a second `delete()` (including on a node that already has no
children) changes nothing. -/
theorem claim_C5 (n : Node) :
    (deleteRun n).1.children = []
    ∧ (∀ d ∈ (deleteRun n).2, d.children = [])
    ∧ deleteRun (deleteRun n).1 = ((deleteRun n).1, [])
    ∧ (∀ m : Node, m.children = [] → deleteRun m = (m, [])) := by
  refine ⟨deleteRun_fst_children n, deleteRun_snd_children n, ?_,
    fun m hm => deleteRun_of_empty m hm⟩
  exact deleteRun_of_empty _ (deleteRun_fst_children n)

/-- Witness for C5: deleting a concrete two-level tree empties the root and
its child, and deleting again changes nothing. -/
theorem claim_C5_witness :
    (deleteRun wTree).1.children = []
    ∧ wChild.children = []
    ∧ deleteRun (deleteRun wTree).1 = ((deleteRun wTree).1, [])
    ∧ deleteRun wChild = (wChild, []) :=
  ⟨(claim_C5 wTree).1,
   (claim_C5 wTree).2.1 wChild (by simp [wTree, wChild, deleteRun, deleteRunList]),
   (claim_C5 wTree).2.2.1,
   (claim_C5 wTree).2.2.2 wChild rfl⟩

/-- C6: `setMatrix(m, copy=true)` stores a defensive copy, so mutating the
argument's cell afterwards does not change what the node reads back, while
`setMatrix(m, copy=false)` aliases the argument, so the mutated value is
observable through the node's matrix. -/
theorem claim_C6 (store : List Mat4) (h : Nat) (m2 : Mat4)
    (hh : h < store.length) :
    readMatrix (store.set h m2) (setMatrixSlot store h true)
        = store.getD h Mat4.identity
    ∧ readMatrix (store.set h m2) (setMatrixSlot store h false) = m2 := by
  constructor
  · simp [setMatrixSlot, readMatrix]
  · have hs : setMatrixSlot store h false = .shared h := by simp [setMatrixSlot]
    rw [hs]
    simp only [readMatrix]
    exact getD_set_self m2 Mat4.identity store h hh

/-- Witness for C6: on a one-cell store, the copying slot still reads the old
value after the cell is overwritten, while the aliasing slot reads the new
value. -/
theorem claim_C6_witness :
    readMatrix ([Mat4.identity].set 0 (Mat4.uniformScale 2))
        (setMatrixSlot [Mat4.identity] 0 true)
      = [Mat4.identity].getD 0 Mat4.identity
    ∧ readMatrix ([Mat4.identity].set 0 (Mat4.uniformScale 2))
        (setMatrixSlot [Mat4.identity] 0 false) = Mat4.uniformScale 2 :=
  claim_C6 [Mat4.identity] 0 (Mat4.uniformScale 2) (by simp)

/-- C7: `traverse` applies the visitor to the nodes of the subtree in
pre-order — the visit log is exactly the pre-order sequence, whose head is
the node itself followed by its children's subtree sequences in insertion
order; for a tree `R -> [A, B]` the sequence is `R`, then A's subtree, then
B's subtree. -/
theorem claim_C7 :
    (∀ (n : Node) (s : List Node), traverseNode visitLog n s = s ++ preorder n)
    ∧ (∀ (d : NodeData) (cs : List Node),
        preorder (Node.mk d cs) = Node.mk d cs :: preorderList cs)
    ∧ (∀ (d : NodeData) (a b : Node),
        traverseNode visitLog (Node.mk d [a, b]) []
          = Node.mk d [a, b] :: (preorder a ++ preorder b)) := by
  refine ⟨fun n s => traverseNode_visitLog n s, fun d cs => by simp [preorder],
    fun d a b => ?_⟩
  rw [traverseNode_visitLog]
  simp [preorder, preorderList]

/-- C8: re-running `compileMatrices()` with unchanged local matrices changes
nothing — in particular every node's `worldMatrix` keeps its value from the
first run. -/
theorem claim_C8 (n : Node) :
    n.compileMatrices.compileMatrices = n.compileMatrices
    ∧ (preorder n.compileMatrices.compileMatrices).map Node.worldMatrix
        = (preorder n.compileMatrices).map Node.worldMatrix := by
  have h : n.compileMatrices.compileMatrices = n.compileMatrices :=
    compileWith_idem n Mat4.identity
  exact ⟨h, by rw [h]⟩

/-- C9: unspecified transform fields default to zero position, zero rotation,
unit scale and an identity local matrix; a supplied `matrix` becomes the
local matrix verbatim, regardless of any supplied
position/rotation/scale. -/
theorem claim_C9 (tag : Nat) (cfg : PropsConfig) (cs : List Node) :
    (cfg.position = none → (mkNode tag cfg cs).position = Vec3.zero)
    ∧ (cfg.rotation = none → (mkNode tag cfg cs).rotation = Vec3.zero)
    ∧ (cfg.scale = none → (mkNode tag cfg cs).scaleV = Vec3.one)
    ∧ (cfg.matrix = none → (mkNode tag cfg cs).matrix = Mat4.identity)
    ∧ (∀ m : Mat4, cfg.matrix = some m → (mkNode tag cfg cs).matrix = m) := by
  cases cfg with
  | mk disp pos rot scl mat idf =>
    refine ⟨?_, ?_, ?_, ?_, ?_⟩
    · intro h
      subst h
      simp [mkNode, applyProps, defaultData, Node.position, Node.data]
    · intro h
      subst h
      simp [mkNode, applyProps, defaultData, Node.rotation, Node.data]
    · intro h
      subst h
      simp [mkNode, applyProps, defaultData, Node.scaleV, Node.data]
    · intro h
      subst h
      simp [mkNode, applyProps, defaultData, Node.matrix, Node.data]
    · intro m h
      subst h
      simp [mkNode, applyProps, defaultData, Node.matrix, Node.data]

/-- Witness for C9: an empty configuration yields the identity local matrix,
and a configuration supplying both a matrix and position/rotation/scale
yields that matrix verbatim. -/
theorem claim_C9_witness :
    (mkNode 0 PropsConfig.empty []).matrix = Mat4.identity
    ∧ (mkNode 0 wCfgFull []).matrix = Mat4.uniformScale 4 :=
  ⟨(claim_C9 0 PropsConfig.empty []).2.2.2.1 rfl,
   (claim_C9 0 wCfgFull []).2.2.2.2 (Mat4.uniformScale 4) rfl⟩

/-- C10: a configuration supplying both a matrix and position/rotation/scale
vectors, given to the constructor or to `setProps`, stores the vectors
unchanged, and every supplied property — display, position, rotation, scale,
matrix and id — is reflected identically in the retained props record and in
the top-level attribute of the same name. -/
theorem claim_C10 (n : Node) (cfg : PropsConfig) (tag : Nat) (cs : List Node)
    (b : Bool) (p r s : Vec3) (m : Mat4) (i : String) :
    (cfg.display = some b → cfg.matrix = some m →
      (mkNode tag cfg cs).display = b
      ∧ (mkNode tag cfg cs).props.display = some b
      ∧ (n.setProps cfg).display = b
      ∧ (n.setProps cfg).props.display = some b)
    ∧ (cfg.position = some p → cfg.matrix = some m →
      (mkNode tag cfg cs).position = p
      ∧ (mkNode tag cfg cs).props.position = some p
      ∧ (n.setProps cfg).position = p
      ∧ (n.setProps cfg).props.position = some p)
    ∧ (cfg.rotation = some r → cfg.matrix = some m →
      (mkNode tag cfg cs).rotation = r
      ∧ (mkNode tag cfg cs).props.rotation = some r
      ∧ (n.setProps cfg).rotation = r
      ∧ (n.setProps cfg).props.rotation = some r)
    ∧ (cfg.scale = some s → cfg.matrix = some m →
      (mkNode tag cfg cs).scaleV = s
      ∧ (mkNode tag cfg cs).props.scale = some s
      ∧ (n.setProps cfg).scaleV = s
      ∧ (n.setProps cfg).props.scale = some s)
    ∧ (cfg.matrix = some m →
      (mkNode tag cfg cs).matrix = m
      ∧ (mkNode tag cfg cs).props.matrix = some m
      ∧ (n.setProps cfg).matrix = m
      ∧ (n.setProps cfg).props.matrix = some m)
    ∧ (cfg.id = some i → cfg.matrix = some m →
      (mkNode tag cfg cs).data.id = i
      ∧ (mkNode tag cfg cs).props.id = some i
      ∧ (n.setProps cfg).data.id = i
      ∧ (n.setProps cfg).props.id = some i) := by
  cases n with
  | mk d ncs =>
    cases cfg with
    | mk disp pos rot scl mat idf =>
      refine ⟨?_, ?_, ?_, ?_, ?_, ?_⟩
      · intro h1 h2
        subst h1
        subst h2
        simp [mkNode, applyProps, defaultData, Node.display, Node.props,
          Node.data, Node.setProps, PropsConfig.merge, PropsConfig.empty]
      · intro h1 h2
        subst h1
        subst h2
        simp [mkNode, applyProps, defaultData, Node.position, Node.props,
          Node.data, Node.setProps, PropsConfig.merge, PropsConfig.empty]
      · intro h1 h2
        subst h1
        subst h2
        simp [mkNode, applyProps, defaultData, Node.rotation, Node.props,
          Node.data, Node.setProps, PropsConfig.merge, PropsConfig.empty]
      · intro h1 h2
        subst h1
        subst h2
        simp [mkNode, applyProps, defaultData, Node.scaleV, Node.props,
          Node.data, Node.setProps, PropsConfig.merge, PropsConfig.empty]
      · intro h2
        subst h2
        simp [mkNode, applyProps, defaultData, Node.matrix, Node.props,
          Node.data, Node.setProps, PropsConfig.merge, PropsConfig.empty]
      · intro h1 h2
        subst h1
        subst h2
        simp [mkNode, applyProps, defaultData, Node.props,
          Node.data, Node.setProps, PropsConfig.merge, PropsConfig.empty]

/-- Witness for C10: the full concrete configuration — supplying display,
position, rotation, scale, a matrix and an id — given to the constructor and
to `setProps`, keeps every property readable both as a top-level attribute
and in the props record. -/
theorem claim_C10_witness :
    ((mkNode 0 wCfgFull []).display = true
      ∧ (mkNode 0 wCfgFull []).props.display = some true
      ∧ ((Node.mk (defaultData 5) []).setProps wCfgFull).display = true
      ∧ ((Node.mk (defaultData 5) []).setProps wCfgFull).props.display
          = some true)
    ∧ ((mkNode 0 wCfgFull []).position = ⟨1, 1, 1⟩
      ∧ (mkNode 0 wCfgFull []).props.position = some ⟨1, 1, 1⟩
      ∧ ((Node.mk (defaultData 5) []).setProps wCfgFull).position = ⟨1, 1, 1⟩
      ∧ ((Node.mk (defaultData 5) []).setProps wCfgFull).props.position
          = some ⟨1, 1, 1⟩)
    ∧ ((mkNode 0 wCfgFull []).rotation = ⟨2, 2, 2⟩
      ∧ (mkNode 0 wCfgFull []).props.rotation = some ⟨2, 2, 2⟩
      ∧ ((Node.mk (defaultData 5) []).setProps wCfgFull).rotation = ⟨2, 2, 2⟩
      ∧ ((Node.mk (defaultData 5) []).setProps wCfgFull).props.rotation
          = some ⟨2, 2, 2⟩)
    ∧ ((mkNode 0 wCfgFull []).scaleV = ⟨3, 3, 3⟩
      ∧ (mkNode 0 wCfgFull []).props.scale = some ⟨3, 3, 3⟩
      ∧ ((Node.mk (defaultData 5) []).setProps wCfgFull).scaleV = ⟨3, 3, 3⟩
      ∧ ((Node.mk (defaultData 5) []).setProps wCfgFull).props.scale
          = some ⟨3, 3, 3⟩)
    ∧ ((mkNode 0 wCfgFull []).matrix = Mat4.uniformScale 4
      ∧ (mkNode 0 wCfgFull []).props.matrix = some (Mat4.uniformScale 4)
      ∧ ((Node.mk (defaultData 5) []).setProps wCfgFull).matrix
          = Mat4.uniformScale 4
      ∧ ((Node.mk (defaultData 5) []).setProps wCfgFull).props.matrix
          = some (Mat4.uniformScale 4))
    ∧ ((mkNode 0 wCfgFull []).data.id = "full"
      ∧ (mkNode 0 wCfgFull []).props.id = some "full"
      ∧ ((Node.mk (defaultData 5) []).setProps wCfgFull).data.id = "full"
      ∧ ((Node.mk (defaultData 5) []).setProps wCfgFull).props.id
          = some "full") :=
  ⟨(claim_C10 (Node.mk (defaultData 5) []) wCfgFull 0 [] true ⟨1, 1, 1⟩
      ⟨2, 2, 2⟩ ⟨3, 3, 3⟩ (Mat4.uniformScale 4) "full").1 rfl rfl,
   (claim_C10 (Node.mk (defaultData 5) []) wCfgFull 0 [] true ⟨1, 1, 1⟩
      ⟨2, 2, 2⟩ ⟨3, 3, 3⟩ (Mat4.uniformScale 4) "full").2.1 rfl rfl,
   (claim_C10 (Node.mk (defaultData 5) []) wCfgFull 0 [] true ⟨1, 1, 1⟩
      ⟨2, 2, 2⟩ ⟨3, 3, 3⟩ (Mat4.uniformScale 4) "full").2.2.1 rfl rfl,
   (claim_C10 (Node.mk (defaultData 5) []) wCfgFull 0 [] true ⟨1, 1, 1⟩
      ⟨2, 2, 2⟩ ⟨3, 3, 3⟩ (Mat4.uniformScale 4) "full").2.2.2.1 rfl rfl,
   (claim_C10 (Node.mk (defaultData 5) []) wCfgFull 0 [] true ⟨1, 1, 1⟩
      ⟨2, 2, 2⟩ ⟨3, 3, 3⟩ (Mat4.uniformScale 4) "full").2.2.2.2.1 rfl,
   (claim_C10 (Node.mk (defaultData 5) []) wCfgFull 0 [] true ⟨1, 1, 1⟩
      ⟨2, 2, 2⟩ ⟨3, 3, 3⟩ (Mat4.uniformScale 4) "full").2.2.2.2.2 rfl rfl⟩


end Scenegraph
